import Mathlib

/-!
Shallow embedding of the waterfall-gwat validator processor
(package validator, file of Processor.Call and its operation handlers)
together with the parts of its collaborators that the processor observes:
the validator record store, the chain-configuration fork predicates, the
delegating-stake rules and the state accessor.

Machine integers: Go uint64 values (slots, eras, epochs, nonces, indexes,
counters) are modelled as Nat with explicit wrap-around at 2 ^ 64 where the
source performs uint64 arithmetic; Go big.Int values (balances, stake
amounts, operation values) are modelled as Int (arbitrary precision, like
big.Int). Go big.Int Div is Euclidean division, modelled as Int.ediv.
-/

set_option autoImplicit false

namespace ValProc

/-- Wrap-around of Go uint64 arithmetic. -/
def u64 (n : Nat) : Nat := n % 2 ^ 64

/-- math.MaxUint64, the sentinel for "not yet activated" / "not exited". -/
def maxUint64 : Nat := 2 ^ 64 - 1

/-- Addresses (common.Address, 20 bytes) as their numeric value. -/
abbrev Address := Nat

/-- Hashes (common.Hash, 32 bytes), split into the first 20 bytes (the
address-sized prefix compared against a creator address by the
slashing-detection convention) and the remaining 12 bytes. -/
structure Hash where
  pre : Nat
  rest : Nat
deriving DecidableEq, Repr

/-- The zero hash common.Hash{}. -/
def zeroHash : Hash := ⟨0, 0⟩

/-- common.BigGwei = 10^9. -/
def bigGwei : Int := 10 ^ 9

/-- common.BigWat = 10^18. -/
def bigWat : Int := 10 ^ 18

/-- common.BnCanCastToUint64: the big.Int value fits in a uint64. -/
def bnCanCastToUint64 (x : Int) : Bool := decide (0 ≤ x ∧ x < (2 : Int) ^ 64)

/-- MinDepositVal = 10 wat = 10^19 base units. -/
def minDepositVal : Int := 10 ^ 19

/-- Modelled from the spec: operation.DelegatingStakeRules (the operation
codec package is not part of the provided sources). ProfitShare and
StakeShare map addresses to uint8 percentages (association lists here);
exitRoles and withdrawalRoles are the Exit / Withdrawal role lists. -/
structure DelegatingStakeRules where
  profitShare : List (Address × Nat)
  stakeShare : List (Address × Nat)
  exitRoles : List Address
  withdrawalRoles : List Address
deriving DecidableEq, Repr

/-- Modelled from the spec: operation.DelegatingStakeData
(Rules, TrialPeriod, TrialRules). -/
structure DelegatingStakeData where
  rules : DelegatingStakeRules
  trialPeriod : Nat
  trialRules : DelegatingStakeRules
deriving DecidableEq, Repr

/-- valStore.NoVer. -/
def NoVer : Nat := 0

/-- valStore.Ver1. -/
def Ver1 : Nat := 1

/-- Modelled from the spec: the per-validator record of the Validator
Record Store (valStore.Validator): stake ledger, activation/exit eras with
the max-uint64 sentinel, pending operation tx pointers and schema version.
Marshal-binary equality of DelegatingStake data is modelled as structural
equality (the encoding is injective). -/
structure Validator where
  pubKey : Nat
  address : Address
  withdrawalAddress : Option Address
  index : Nat
  activationEra : Nat
  exitEra : Nat
  stake : List (Address × Int)
  depositTxs : List Hash
  exitTx : Option Hash
  withdrawalTx : Option Hash
  delegatingStake : Option DelegatingStakeData
  version : Nat
deriving DecidableEq, Repr

/-- valStore.NewValidator: fresh record, sentinel eras, empty ledger. -/
def newValidator (pubKey : Nat) (creator : Address) (wa : Option Address) : Validator :=
  { pubKey := pubKey
    address := creator
    withdrawalAddress := wa
    index := 0
    activationEra := maxUint64
    exitEra := maxUint64
    stake := []
    depositTxs := []
    exitTx := none
    withdrawalTx := none
    delegatingStake := none
    version := NoVer }

/-- Look up a stake-ledger entry by depositor address. -/
def stakeLookup : List (Address × Int) → Address → Option Int
  | [], _ => none
  | (k, x) :: t, a => if k = a then some x else stakeLookup t a

/-- Replace a stake-ledger entry's amount (first occurrence). -/
def stakeSet : List (Address × Int) → Address → Int → List (Address × Int)
  | [], _, _ => []
  | (k, x) :: t, a, amt => if k = a then (k, amt) :: t else (k, x) :: stakeSet t a amt

/-- Add to a stake-ledger entry, inserting it when absent (Validator.AddStake). -/
def stakeAdd : List (Address × Int) → Address → Int → List (Address × Int)
  | [], a, amt => [(a, amt)]
  | (k, x) :: t, a, amt => if k = a then (k, x + amt) :: t else (k, x) :: stakeAdd t a amt

/-- Validator.StakeByAddress. -/
def Validator.stakeByAddress (v : Validator) (a : Address) : Option Int :=
  stakeLookup v.stake a

/-- Validator.TotalStake: sum of all ledger entries. -/
def Validator.totalStake (v : Validator) : Int :=
  (v.stake.map Prod.snd).sum

/-- Validator.AddStake. -/
def Validator.addStake (v : Validator) (a : Address) (amt : Int) : Validator :=
  { v with stake := stakeAdd v.stake a amt }

/-- Validator.SubtractStake: returns the new entry amount and the updated
record; fails (none) when the depositor has no ledger entry. -/
def Validator.subtractStake (v : Validator) (a : Address) (amt : Int) :
    Option (Int × Validator) :=
  match stakeLookup v.stake a with
  | none => none
  | some cur => some (cur - amt, { v with stake := stakeSet v.stake a (cur - amt) })

/-- Validator.RmStakeByAddress: evict the depositor's ledger entry. -/
def Validator.rmStakeByAddress (v : Validator) (a : Address) : Validator :=
  { v with stake := v.stake.filter (fun kv => kv.1 ≠ a) }

/-- Errors returned by the processor (package validator error values, plus
the operation-codec errors the processor surfaces). -/
inductive VErr
  | decodeErr
  | tooLowDepositValue
  | insufficientFundsForOp
  | invalidFromAddresses
  | unknownValidator
  | noWithdrawalCred
  | mismatchPubKey
  | notActivatedValidator
  | validatorActivated
  | validatorIsOut
  | invalidToAddress
  | noSavedValSyncOp
  | valSyncTxExists
  | valOpBlocked
  | noActiveWithdrawalOp
  | mismatchValSyncOp
  | invalidOpEpoch
  | txNF
  | receiptNF
  | invalidReceiptStatus
  | invalidOpCode
  | invalidCreator
  | invalidAmount
  | mismatchDelegateData
  | senderRejByDelegate
  | depositAlreadyActivated
  | depositMismatchPubKey
  | depositMismatchWithdrawalAddress
  | delegateForkRequire
  | badDepositSig
  | badProfitShare
  | badStakeShare
  | noExitRoles
  | noWithdrawalRoles
  | noBalance
  | initTxReceiptNF
  | initTxReceiptFailed
  | slotOfEpochErr
deriving DecidableEq, Repr

/-- Sum of the share percentages of a share map. -/
def sumShares (l : List (Address × Nat)) : Nat :=
  (l.map Prod.snd).sum

/-- Modelled from the spec: DelegatingStakeRules.Validate of the operation
codec package (not part of the provided sources; behaviour fixed by the
spec and by TestDelegatingStakeRules_validate): profit-share sum must be
exactly 100, stake-share sum exactly 100, both role lists non-empty;
returns the first violated rule as its named error. -/
def DelegatingStakeRules.validate (r : DelegatingStakeRules) : Option VErr :=
  if sumShares r.profitShare ≠ 100 then some .badProfitShare
  else if sumShares r.stakeShare ≠ 100 then some .badStakeShare
  else if r.exitRoles = [] then some .noExitRoles
  else if r.withdrawalRoles = [] then some .noWithdrawalRoles
  else none

/-- Modelled from the spec: the operation op-code bytes of the operation
codec (only their distinctness is observable to the processor). -/
def DepositCode : Nat := 1

def ActivateCode : Nat := 2

def ExitCode : Nat := 3

def DeactivateCode : Nat := 4

def UpdateBalanceCode : Nat := 5

def WithdrawalCode : Nat := 6

/-- operation.Ver1, the sync-operation envelope version. -/
def OpVer1 : Nat := 1

/-- Modelled from the spec: decoded operation.Deposit. The signature check
operation.VerifyDepositSig is BLS cryptography; it is modelled as an
oracle predicate carried by the processor (depositSigOk). -/
structure DepositData where
  pubKey : Nat
  creatorAddress : Address
  withdrawalAddress : Address
  delegatingStake : Option DelegatingStakeData
deriving DecidableEq, Repr

/-- Modelled from the spec: decoded operation.Exit. -/
structure ExitData where
  pubKey : Nat
  creatorAddress : Address
  exitAfterEpoch : Option Nat
deriving DecidableEq, Repr

/-- Modelled from the spec: decoded operation.Withdrawal. -/
structure WithdrawalData where
  creatorAddress : Address
  amount : Int
deriving DecidableEq, Repr

/-- The three coordinator sync-operation kinds. -/
inductive SyncOpType
  | activate
  | deactivate
  | updateBalance
deriving DecidableEq, Repr

/-- Op code of a sync operation kind. -/
def SyncOpType.opCode : SyncOpType → Nat
  | .activate => ActivateCode
  | .deactivate => DeactivateCode
  | .updateBalance => UpdateBalanceCode

/-- Modelled from the spec: decoded operation.ValidatorSync
(OpType, ProcEpoch, Index, Creator, Amount, Balance, InitTxHash, Version). -/
structure ValidatorSyncData where
  opType : SyncOpType
  procEpoch : Nat
  index : Nat
  creator : Address
  amount : Option Int
  balance : Option Int
  initTxHash : Hash
  version : Nat
deriving DecidableEq, Repr

/-- types.ValidatorSync: the coordinator-authored saved sync record
looked up by InitTxHash. -/
structure SavedValSync where
  opType : SyncOpType
  procEpoch : Nat
  index : Nat
  creator : Address
  amount : Option Int
  txHash : Option Hash
  initTxHash : Hash
deriving DecidableEq, Repr

/-- The decoded validator operation sum (operation.DecodeBytes result). -/
inductive Op
  | deposit (d : DepositData)
  | exit (e : ExitData)
  | withdrawal (w : WithdrawalData)
  | valSync (v : ValidatorSyncData)
deriving DecidableEq, Repr

/-- OpCode of a decoded operation. -/
def Op.opCode : Op → Nat
  | .deposit _ => DepositCode
  | .exit _ => ExitCode
  | .withdrawal _ => WithdrawalCode
  | .valSync v => v.opType.opCode

/-- types.Receipt as the processor observes it: only the status. -/
structure Receipt where
  status : Nat
deriving DecidableEq, Repr

/-- types.ReceiptStatusSuccessful. -/
def receiptStatusSuccessful : Nat := 1

/-- A looked-up transaction: its decoded payload (none models an
operation.DecodeBytes failure on the raw data) and its recovered sender
(types.Sender with the latest signer). -/
structure Tx where
  dataOp : Option Op
  sender : Address
deriving DecidableEq, Repr

/-- Structured event logs appended by the event emitter, reduced to the
fields the spec claims observe. -/
inductive LogEntry
  | deposit (creator : Address) (amount : Int) (count : Nat)
  | exitRequest (creator : Address) (exitAfterEpoch : Nat)
  | withdrawalRequest (creator : Address) (amtGwei : Nat)
  | activate (creator : Address)
  | deactivate (creator : Address)
  | updateBalance (creator : Address) (amount : Int)
  | delegatingStakeApplied (entries : List (Address × Int))
deriving DecidableEq, Repr

/-- The slice of vm.StateDB the processor mutates, plus the storage the
Validator Record Store keeps inside the shared state trie (validator
records by creator address, the global deposit counter and the global
validator index list). Snapshot/revert is modelled by keeping the whole
value: reverting is returning the saved value. -/
structure StateDB where
  balances : Address → Int
  nonces : Address → Nat
  logs : List LogEntry
  validators : Address → Option Validator
  depositCount : Nat
  validatorList : List (Nat × Address)

/-- vm.StateDB.AddBalance. -/
def StateDB.addBalance (s : StateDB) (a : Address) (amt : Int) : StateDB :=
  { s with balances := fun x => if x = a then s.balances a + amt else s.balances x }

/-- vm.StateDB.SubBalance. -/
def StateDB.subBalance (s : StateDB) (a : Address) (amt : Int) : StateDB :=
  { s with balances := fun x => if x = a then s.balances a - amt else s.balances x }

/-- The nonce get/set pair at the top of Processor.Call (uint64 wrap). -/
def StateDB.bumpNonce (s : StateDB) (a : Address) : StateDB :=
  { s with nonces := fun x => if x = a then u64 (s.nonces a + 1) else s.nonces x }

/-- Event emitter: append a structured log. -/
def StateDB.addLog (s : StateDB) (l : LogEntry) : StateDB :=
  { s with logs := s.logs ++ [l] }

/-- valStore.SetValidator: persist a record under its creator address. -/
def StateDB.setValidator (s : StateDB) (v : Validator) : StateDB :=
  { s with validators := fun x => if x = v.address then some v else s.validators x }

/-- params.ChainConfig: the fork-activation slots and constants the
processor reads. A fork predicate holds once the slot has reached the
fork-activation slot. -/
structure ChainConfig where
  forkSlotDelegate : Nat
  forkSlotValOpTracking : Nat
  forkSlotValSyncProc : Nat
  validatorOpExpireSlots : Nat
  effectiveBalance : Int

/-- params.ChainConfig.IsForkSlotDelegate. -/
def ChainConfig.isForkSlotDelegate (c : ChainConfig) (slot : Nat) : Bool :=
  decide (c.forkSlotDelegate ≤ slot)

/-- params.ChainConfig.IsForkSlotValOpTracking. -/
def ChainConfig.isForkSlotValOpTracking (c : ChainConfig) (slot : Nat) : Bool :=
  decide (c.forkSlotValOpTracking ≤ slot)

/-- params.ChainConfig.IsForkSlotValSyncProc. -/
def ChainConfig.isForkSlotValSyncProc (c : ChainConfig) (slot : Nat) : Bool :=
  decide (c.forkSlotValSyncProc ≤ slot)

/-- The Processor together with the blockchain collaborator functions and
block context it consults. receiptLookup returns the receipt (when found)
and the hash of the containing block, as GetTransactionReceipt does;
headerSlot is GetHeaderByHash projected to the header slot. -/
structure Proc where
  valsStateAddress : Address
  cfg : ChainConfig
  ctxSlot : Nat
  ctxEra : Nat
  ctxBlockHash : Hash
  eraInfoNumber : Nat
  currentSlot : Nat
  slotToEpoch : Nat → Nat
  slotOfEpochStart : Nat → Option Nat
  epochToEra : Nat → Nat
  eraStartEpoch : Nat → Nat
  receiptLookup : Hash → Option Receipt × Hash
  headerSlot : Hash → Option Nat
  txLookup : Hash → Option Tx
  savedValSync : Hash → Option SavedValSync
  depositSigOk : DepositData → Bool

/-- The postpone constant (two-era postponement). -/
def postpone : Nat := 2

/-- Processor.updateValidatorVersionBySlot: bump the record schema version
to Ver1 once the operation-tracking fork is active at the context slot. -/
def Proc.updateValidatorVersionBySlot (p : Proc) (v : Validator) : Validator :=
  { v with version := if p.cfg.isForkSlotValOpTracking p.ctxSlot then Ver1 else NoVer }

/-- The pending-operation expiration check repeated verbatim in
validatorDeposit, validatorExit and validatorWithdrawal: a pending tx
blocks a new operation when it sits in the same block, or when its receipt
is successful and the current slot is still inside the expiration window
after its block's slot. -/
def Proc.pendingOpBlocked (p : Proc) (prevOpTx : Hash) : Bool :=
  let rcbl := p.receiptLookup prevOpTx
  if rcbl.2 ≠ zeroHash ∧ rcbl.2 = p.ctxBlockHash then true
  else
    match rcbl.1 with
    | some rc =>
      if rc.status = receiptStatusSuccessful then
        match p.headerSlot rcbl.2 with
        | some prevSlot =>
          decide (p.ctxSlot < u64 (prevSlot + p.cfg.validatorOpExpireSlots))
        | none => false
      else false
    | none => false

/-- The ver1 data-validation gate shared by deposit, exit and withdrawal:
the block check runs only for records at Ver1 or later, and only when a
pending tx of the relevant kind exists. -/
def Proc.pendingOpBlocks (p : Proc) (v : Validator) (prevTx : Option Hash) : Bool :=
  if Ver1 ≤ v.version then
    match prevTx with
    | some prev => p.pendingOpBlocked prev
    | none => false
  else false

/-- Processor.isValidatorTrialPeriod: a validator is in its trial period
when not yet activated, or still within TrialPeriod slots of its
activation slot, or it exited while still inside that window. TrialPeriod
is read from the delegating-stake sub-record (the source is only called on
delegating validators; an absent sub-record contributes period 0). -/
def Proc.isValidatorTrialPeriod (p : Proc) (v : Validator) : Except VErr Bool :=
  if p.ctxEra < v.activationEra then .ok true
  else
    match p.slotOfEpochStart (p.eraStartEpoch v.activationEra) with
    | none => .error .slotOfEpochErr
    | some activationSlot =>
      let trialPeriod := (v.delegatingStake.map (fun d => d.trialPeriod)).getD 0
      let endTrialSlot := u64 (activationSlot + trialPeriod)
      if p.ctxSlot ≤ endTrialSlot then .ok true
      else if v.exitEra ≤ p.ctxEra then
        match p.slotOfEpochStart (p.eraStartEpoch v.exitEra) with
        | none => .error .slotOfEpochErr
        | some exitSlot => .ok (decide (exitSlot ≤ endTrialSlot))
      else .ok false

/-- The delegating-stake gate at the top of validatorDeposit: when the
operation carries delegating-stake data, the delegate fork must be active
and the rules must validate. -/
def Proc.depositDelegateCheck (p : Proc) (op : DepositData) : Option VErr :=
  match op.delegatingStake with
  | some dsd =>
    if ¬ p.cfg.isForkSlotDelegate p.ctxSlot then some .delegateForkRequire
    else dsd.rules.validate
  | none => none

/-- The existing-record compliance check of validatorDeposit: an already
activated validator rejects any further deposit; otherwise pubkey,
withdrawal address and delegating-stake data must match exactly and the
stored record is carried forward. -/
def depositExistingCheck (cv : Validator) (op : DepositData) : Except VErr Validator :=
  if cv.activationEra < maxUint64 then .error .depositAlreadyActivated
  else if cv.pubKey ≠ op.pubKey then .error .depositMismatchPubKey
  else if cv.withdrawalAddress ≠ some op.withdrawalAddress then
    .error .depositMismatchWithdrawalAddress
  else if cv.delegatingStake ≠ op.delegatingStake then .error .mismatchDelegateData
  else .ok cv

/-- Processor.validatorDeposit. -/
def Proc.validatorDeposit (p : Proc) (s : StateDB) (caller toAddr : Address)
    (value : Option Int) (op : DepositData) (txHash : Hash) : Except VErr StateDB :=
  if toAddr ≠ p.valsStateAddress then .error .invalidToAddress
  else if ¬ p.depositSigOk op then .error .badDepositSig
  else
    match value with
    | none => .error .tooLowDepositValue
    | some v =>
      if v < minDepositVal then .error .tooLowDepositValue
      else if ¬ bnCanCastToUint64 (Int.ediv v bigGwei) then .error .invalidAmount
      else if s.balances caller < v then .error .insufficientFundsForOp
      else
        match p.depositDelegateCheck op with
        | some e => .error e
        | none =>
          let newV := { newValidator op.pubKey op.creatorAddress (some op.withdrawalAddress)
                        with delegatingStake := op.delegatingStake }
          let chosen : Except VErr Validator :=
            match s.validators op.creatorAddress with
            | none => .ok newV
            | some cv => depositExistingCheck cv op
          match chosen with
          | .error e => .error e
          | .ok validator =>
            if p.pendingOpBlocks validator validator.withdrawalTx then .error .valOpBlocked
            else
              let v1 := p.updateValidatorVersionBySlot validator
              let v1 := { v1 with depositTxs := v1.depositTxs ++ [txHash] }
              let v1 := v1.addStake caller v
              let s1 := s.setValidator v1
              let s1 := s1.addLog (.deposit op.creatorAddress v s1.depositCount)
              let s1 := { s1 with depositCount := u64 (s1.depositCount + 1) }
              .ok (s1.subBalance caller v)

/-- The authorization step of validatorExit: delegating validators accept
only senders in the currently applicable (trial-aware) Exit role list;
otherwise the sender must be the withdrawal address. -/
def Proc.exitAuthCheck (p : Proc) (v : Validator) (caller : Address) : Option VErr :=
  match v.delegatingStake with
  | some dsd =>
    match p.isValidatorTrialPeriod v with
    | .error e => some e
    | .ok isTrial =>
      let actualRules := if isTrial then dsd.trialRules else dsd.rules
      if caller ∈ actualRules.exitRoles then none else some .senderRejByDelegate
  | none =>
    if v.withdrawalAddress = some caller then none else some .invalidFromAddresses

/-- Processor.validatorExit. -/
def Proc.validatorExit (p : Proc) (s : StateDB) (caller toAddr : Address)
    (op : ExitData) (txHash : Hash) : Except VErr StateDB :=
  if toAddr ≠ p.valsStateAddress then .error .invalidToAddress
  else
    match s.validators op.creatorAddress with
    | none => .error .unknownValidator
    | some validator =>
      if validator.pubKey ≠ op.pubKey then .error .mismatchPubKey
      else
        let exitAfterEpoch :=
          match op.exitAfterEpoch with
          | some e => e
          | none => u64 (p.slotToEpoch p.currentSlot + 1)
        if p.eraInfoNumber < validator.activationEra then .error .notActivatedValidator
        else if validator.exitEra ≠ maxUint64 then .error .validatorIsOut
        else
          match p.exitAuthCheck validator caller with
          | some e => .error e
          | none =>
            if p.pendingOpBlocks validator validator.exitTx then .error .valOpBlocked
            else
              let v1 := { p.updateValidatorVersionBySlot validator with exitTx := some txHash }
              .ok ((s.setValidator v1).addLog (.exitRequest op.creatorAddress exitAfterEpoch))

/-- The tail of validatorWithdrawal after the ver1 pending-operation gate:
version upgrade, pending-withdrawal-tx recording, then the three-way
branch (insufficient-deposit refund / delegating roles / withdrawal
credentials), persistence and the withdrawal-request log. -/
def Proc.withdrawalTail (p : Proc) (s : StateDB) (caller : Address)
    (op : WithdrawalData) (txHash : Hash) (validator : Validator) : Except VErr StateDB :=
  let v1 := { p.updateValidatorVersionBySlot validator with withdrawalTx := some txHash }
  let finish : Validator → Int → StateDB := fun vf amt =>
    ((s.setValidator vf).addLog
      (.withdrawalRequest op.creatorAddress (u64 (Int.ediv amt bigGwei).toNat)))
  if v1.activationEra = maxUint64 ∧ v1.totalStake < p.cfg.effectiveBalance * bigWat then
    match v1.stakeByAddress caller with
    | none => .error .invalidFromAddresses
    | some st =>
      if st = 0 then .error .invalidFromAddresses
      else if st < op.amount then .error .insufficientFundsForOp
      else
        let amt := if op.amount = 0 then st else op.amount
        if ¬ p.cfg.isForkSlotValOpTracking p.ctxSlot then
          match v1.subtractStake caller amt with
          | none => .error .insufficientFundsForOp
          | some (newStake, v2) =>
            .ok (finish (if newStake = 0 then v2.rmStakeByAddress caller else v2) amt)
        else .ok (finish v1 amt)
  else
    match v1.delegatingStake with
    | some dsd =>
      match p.isValidatorTrialPeriod v1 with
      | .error e => .error e
      | .ok isTrial =>
        let actualRules := if isTrial then dsd.trialRules else dsd.rules
        if caller ∈ actualRules.withdrawalRoles then .ok (finish v1 op.amount)
        else .error .senderRejByDelegate
    | none =>
      if v1.withdrawalAddress = some caller then .ok (finish v1 op.amount)
      else .error .invalidFromAddresses

/-- Processor.validatorWithdrawal. -/
def Proc.validatorWithdrawal (p : Proc) (s : StateDB) (caller toAddr : Address)
    (op : WithdrawalData) (txHash : Hash) : Except VErr StateDB :=
  if toAddr ≠ p.valsStateAddress then .error .invalidToAddress
  else if ¬ bnCanCastToUint64 (Int.ediv op.amount bigGwei) then .error .invalidAmount
  else
    match s.validators op.creatorAddress with
    | none => .error .unknownValidator
    | some validator =>
      if p.pendingOpBlocks validator validator.withdrawalTx then .error .valOpBlocked
      else p.withdrawalTail s caller op txHash validator

/-- Processor.validatorActivate: reset deposit txs, set the activation era
to the era of the op's processing epoch plus the two-era postponement,
assign the index, clear the stake ledger, persist, register in the global
index list and (delegate-fork-gated) emit the activation log. -/
def Proc.validatorActivate (p : Proc) (s : StateDB) (op : ValidatorSyncData) :
    Except VErr StateDB :=
  match s.validators op.creator with
  | none => .error .unknownValidator
  | some validator =>
    if p.cfg.isForkSlotValOpTracking p.ctxSlot ∧ validator.activationEra ≠ maxUint64 then
      .error .validatorActivated
    else
      let v1 := { p.updateValidatorVersionBySlot validator with depositTxs := [] }
      let opEra := p.epochToEra op.procEpoch
      let v1 := { v1 with activationEra := u64 (opEra + postpone), index := op.index, stake := [] }
      let s1 := s.setValidator v1
      let s1 := { s1 with validatorList := s1.validatorList ++ [(op.index, op.creator)] }
      .ok (if p.cfg.isForkSlotDelegate p.ctxSlot then s1.addLog (.activate op.creator) else s1)

/-- Processor.validatorDeactivate: require not already exited and an
activation era strictly before the effective era (the era of the op's
processing epoch, or, once the sync-processing fork is active, the context
era); clear the pending exit tx and set the exit era to the op era plus
the two-era postponement. -/
def Proc.validatorDeactivate (p : Proc) (s : StateDB) (op : ValidatorSyncData) :
    Except VErr StateDB :=
  match s.validators op.creator with
  | none => .error .unknownValidator
  | some validator =>
    if validator.exitEra ≠ maxUint64 then .error .validatorIsOut
    else
      let opEra := p.epochToEra op.procEpoch
      let opEraNr := if p.cfg.isForkSlotValSyncProc p.ctxSlot then p.ctxEra else opEra
      if opEraNr ≤ validator.activationEra then .error .notActivatedValidator
      else
        let v1 := { p.updateValidatorVersionBySlot validator with
                    exitTx := none, exitEra := u64 (opEra + postpone) }
        let s1 := s.setValidator v1
        .ok (if p.cfg.isForkSlotDelegate p.ctxSlot then s1.addLog (.deactivate op.creator) else s1)

/-- Processor.applyDelegatingStakeRules: split the incoming amount into a
profit portion (above the effective balance) and a stake portion, then fan
each portion out to the role-holders of the applicable (trial-aware) rules
at one percent granularity, truncating with integer division; credits go
directly to every role-holder's account. The validator record itself is
not persisted by this function. -/
def Proc.applyDelegatingStakeRules (p : Proc) (s : StateDB) (op : ValidatorSyncData)
    (validator : Validator) : Except VErr StateDB :=
  if ¬ p.cfg.isForkSlotDelegate p.ctxSlot then .error .delegateForkRequire
  else
    match validator.delegatingStake with
    | none => .error .delegateForkRequire
    | some dsd =>
      match p.isValidatorTrialPeriod validator with
      | .error e => .error e
      | .ok isTrial =>
        let actualRules := if isTrial then dsd.trialRules else dsd.rules
        let amt := (op.amount).getD 0
        let opBalance := (op.balance).getD 0 + amt
        let profitBalance0 := opBalance - p.cfg.effectiveBalance * bigWat
        let profitBalance := if profitBalance0 < 0 then 0 else profitBalance0
        let profitOpAmt0 := profitBalance - amt
        let amounts : Int × Int :=
          if profitOpAmt0 ≤ 0 then (profitBalance, amt - profitBalance) else (profitOpAmt0, 0)
        let profitEntries : List (Address × Int) :=
          if 0 < amounts.1 then
            actualRules.profitShare.map
              (fun kv => (kv.1, Int.ediv amounts.1 100 * (kv.2 : Int)))
          else []
        let stakeEntries : List (Address × Int) :=
          if 0 < amounts.2 then
            actualRules.stakeShare.map
              (fun kv => (kv.1, Int.ediv amounts.2 100 * (kv.2 : Int)))
          else []
        let s1 := (profitEntries ++ stakeEntries).foldl
          (fun st kv => st.addBalance kv.1 kv.2) s
        let s1 := s1.addLog (.updateBalance op.creator amt)
        .ok (s1.addLog (.delegatingStakeApplied (profitEntries ++ stakeEntries)))

/-- The ver1 at-most-one-withdrawal-in-flight validation at the top of
validatorUpdateBalance, with the grandfather-clause fallback for
operations initiated before the operation-tracking fork. Returns the
blocking error, if any. -/
def Proc.updateBalanceVer1Check (p : Proc) (validator : Validator)
    (op : ValidatorSyncData) : Option VErr :=
  if Ver1 ≤ validator.version then
    match validator.withdrawalTx with
    | none =>
      let expiration := p.cfg.validatorOpExpireSlots
      let checkSlot := if expiration < p.ctxSlot then p.ctxSlot - expiration else 0
      if p.cfg.isForkSlotValOpTracking checkSlot then some .noActiveWithdrawalOp
      else
        let rcbl := p.receiptLookup op.initTxHash
        match rcbl.1 with
        | none => some .initTxReceiptNF
        | some rc =>
          if rc.status ≠ receiptStatusSuccessful then some .initTxReceiptFailed
          else
            match p.headerSlot rcbl.2 with
            | none => some .txNF
            | some initSlot =>
              if p.cfg.isForkSlotValOpTracking initSlot then some .noActiveWithdrawalOp
              else none
    | some prev =>
      if prev ≠ op.initTxHash then
        let rcbl := p.receiptLookup prev
        match rcbl.1 with
        | some rc =>
          if rc.status = receiptStatusSuccessful then
            match p.headerSlot rcbl.2 with
            | some prevSlot =>
              if p.ctxSlot < u64 (prevSlot + p.cfg.validatorOpExpireSlots) then
                some .valOpBlocked
              else none
            | none => none
          else none
        | none => none
      else none
  else none

/-- The insufficient-deposit refund branch of validatorUpdateBalance:
resolve and decode the initiating tx (it must be a Withdrawal op), refund
to its sender, and, once the operation-tracking fork is active, subtract
the refunded amount from that sender's stake ledger entry, capping at the
actual stake and evicting an emptied entry. -/
def Proc.updateBalanceRefund (p : Proc) (s : StateDB) (op : ValidatorSyncData)
    (v1 : Validator) : Except VErr StateDB :=
  match p.txLookup op.initTxHash with
  | none => .error .txNF
  | some initTx =>
    match initTx.dataOp with
    | none => .error .decodeErr
    | some iop =>
      match iop with
      | .withdrawal _ =>
        let iTxFrom := initTx.sender
        let withStep : Except VErr Validator :=
          if p.cfg.isForkSlotValOpTracking p.ctxSlot then
            let wDepositAmt0 := (op.amount).getD 0
            let curDepositStake := (v1.stakeByAddress iTxFrom).getD 0
            let wDepositAmt :=
              if curDepositStake < wDepositAmt0 then curDepositStake else wDepositAmt0
            match v1.subtractStake iTxFrom wDepositAmt with
            | none => .error .insufficientFundsForOp
            | some (newStake, v2) =>
              .ok (if newStake = 0 then v2.rmStakeByAddress iTxFrom else v2)
          else .ok v1
        match withStep with
        | .error e => .error e
        | .ok v2 =>
          let s1 := (s.setValidator v2).addBalance iTxFrom ((op.amount).getD 0)
          .ok (if p.cfg.isForkSlotDelegate p.ctxSlot then
                 s1.addLog (.updateBalance op.creator ((op.amount).getD 0))
               else s1)
      | _ => .error .invalidOpCode

/-- Processor.validatorUpdateBalance. -/
def Proc.validatorUpdateBalance (p : Proc) (s : StateDB) (op : ValidatorSyncData) :
    Except VErr StateDB :=
  match s.validators op.creator with
  | none => .error .unknownValidator
  | some validator =>
    match p.updateBalanceVer1Check validator op with
    | some e => .error e
    | none =>
      let v1 := { p.updateValidatorVersionBySlot validator with withdrawalTx := none }
      if v1.activationEra = maxUint64 ∧ v1.totalStake < p.cfg.effectiveBalance * bigWat then
        p.updateBalanceRefund s op v1
      else
        match v1.delegatingStake with
        | some _ => p.applyDelegatingStakeRules s op v1
        | none =>
          match v1.withdrawalAddress with
          | none => .error .noWithdrawalCred
          | some wTo =>
            let s1 := (s.setValidator v1).addBalance wTo ((op.amount).getD 0)
            .ok (if p.cfg.isForkSlotDelegate p.ctxSlot then
                   s1.addLog (.updateBalance op.creator ((op.amount).getD 0))
                 else s1)

/-- CompareValSync: field-by-field comparison of a sync operation against
the saved coordinator record: InitTxHash, OpType, Creator and Index must
be equal; before the delegate fork the saved ProcEpoch must not exceed the
op's; the Amount pointers must agree (both absent, or both present and
equal). -/
def CompareValSync (saved : SavedValSync) (input : ValidatorSyncData)
    (isForkDelegate : Bool) : Bool :=
  if saved.initTxHash ≠ input.initTxHash then false
  else if saved.opType ≠ input.opType then false
  else if saved.creator ≠ input.creator then false
  else if saved.index ≠ input.index then false
  else if ¬ isForkDelegate ∧ input.procEpoch < saved.procEpoch then false
  else
    match saved.amount, input.amount with
    | some a, some b => decide (a = b)
    | none, none => true
    | _, _ => false

/-- The initiating-transaction consistency check of ValidateValidatorSyncOp:
decode the initiating tx's payload and verify the op-code relationship,
creator and (for Exit) epoch ordering, and (for Ver1 Withdrawal syncs) the
presence of a balance. -/
def initTxFieldCheck (iop : Op) (valSyncOp : ValidatorSyncData) : Option VErr :=
  match iop with
  | .deposit d =>
    if valSyncOp.opType.opCode = DepositCode then some .invalidOpCode
    else if d.creatorAddress ≠ valSyncOp.creator then some .invalidCreator
    else none
  | .exit e =>
    if valSyncOp.opType.opCode = ExitCode then some .invalidOpCode
    else if e.creatorAddress ≠ valSyncOp.creator then some .invalidCreator
    else
      match e.exitAfterEpoch with
      | some ep => if valSyncOp.procEpoch < ep then some .invalidOpEpoch else none
      | none => none
  | .withdrawal w =>
    if valSyncOp.opType.opCode = WithdrawalCode then some .invalidOpCode
    else if w.creatorAddress ≠ valSyncOp.creator then some .invalidCreator
    else if valSyncOp.version = OpVer1 ∧ valSyncOp.balance = none then some .noBalance
    else none
  | .valSync _ => some .invalidOpCode

/-- The duplicate-tx check of ValidateValidatorSyncOp: a saved record
already carrying a different tx hash is a duplicate; after the delegate
fork, re-submission is allowed when the previous tx's receipt is not
successful. -/
def savedTxDupCheck (p : Proc) (saved : SavedValSync) (isForkDelegate : Bool)
    (txHash : Hash) : Option VErr :=
  match saved.txHash with
  | some t =>
    if t ≠ txHash then
      if ¬ isForkDelegate then some .valSyncTxExists
      else
        match (p.receiptLookup t).1 with
        | some rc =>
          if rc.status = receiptStatusSuccessful then some .valSyncTxExists else none
        | none => none
    else none
  | none => none

/-- The initiating-transaction stage of ValidateValidatorSyncOp: skipped
for slashing-initiated ops (init tx hash prefix equals the creator bytes);
otherwise resolve the initiating tx, decode it, check its fields and
require its receipt to be successful. -/
def validateSyncInitTx (p : Proc) (valSyncOp : ValidatorSyncData) : Option VErr :=
  if valSyncOp.initTxHash.pre = valSyncOp.creator then none
  else
    match p.txLookup valSyncOp.initTxHash with
    | none => some .txNF
    | some initTx =>
      match initTx.dataOp with
      | none => some .decodeErr
      | some iop =>
        match initTxFieldCheck iop valSyncOp with
        | some e => some e
        | none =>
          match (p.receiptLookup valSyncOp.initTxHash).1 with
          | none => some .receiptNF
          | some rc =>
            if rc.status ≠ receiptStatusSuccessful then some .invalidReceiptStatus
            else none

/-- ValidateValidatorSyncOp: cross-validation of a sync operation against
the coordinator-recorded saved sync data and the initiating transaction.
Returns none when the operation is acceptable. -/
def ValidateValidatorSyncOp (p : Proc) (valSyncOp : ValidatorSyncData)
    (applySlot : Nat) (txHash : Hash) : Option VErr :=
  match p.savedValSync valSyncOp.initTxHash with
  | none => some .noSavedValSyncOp
  | some saved =>
    let isForkDelegate := p.cfg.isForkSlotDelegate applySlot
    if ¬ isForkDelegate ∧ valSyncOp.procEpoch < p.slotToEpoch applySlot then
      some .invalidOpEpoch
    else if ¬ CompareValSync saved valSyncOp isForkDelegate then some .mismatchValSyncOp
    else
      match savedTxDupCheck p saved isForkDelegate txHash with
      | some e => some e
      | none => validateSyncInitTx p valSyncOp

/-- Processor.syncOpProcessing: validate against the saved sync data, then
dispatch by op code to Activate / Deactivate / UpdateBalance. -/
def Proc.syncOpProcessing (p : Proc) (s : StateDB) (op : ValidatorSyncData)
    (txHash : Hash) : Except VErr StateDB :=
  match ValidateValidatorSyncOp p op p.ctxSlot txHash with
  | some e => .error e
  | none =>
    match op.opType with
    | .activate => p.validatorActivate s op
    | .deactivate => p.validatorDeactivate s op
    | .updateBalance => p.validatorUpdateBalance s op

/-- The message a transaction hands to Processor.Call: its hash and its
decoded payload (none models an operation.DecodeBytes failure). -/
structure Msg where
  txHash : Hash
  dataOp : Option Op

/-- The operation dispatch inside Processor.Call. -/
def Proc.dispatchOp (p : Proc) (s : StateDB) (caller toAddr : Address)
    (value : Option Int) (op : Op) (txHash : Hash) : Except VErr StateDB :=
  match op with
  | .deposit d => p.validatorDeposit s caller toAddr value d txHash
  | .valSync v => p.syncOpProcessing s v txHash
  | .exit e => p.validatorExit s caller toAddr e txHash
  | .withdrawal w => p.validatorWithdrawal s caller toAddr w txHash

/-- Processor.Call: decode, bump the caller nonce, take the snapshot,
dispatch, and on error revert to the snapshot taken after the nonce
increment. Returns the error (if any) and the resulting world state. -/
def Proc.Call (p : Proc) (s : StateDB) (caller toAddr : Address) (value : Option Int)
    (msg : Msg) : Option VErr × StateDB :=
  match msg.dataOp with
  | none => (some .decodeErr, s)
  | some op =>
    let snapshot := s.bumpNonce caller
    match p.dispatchOp snapshot caller toAddr value op msg.txHash with
    | .ok s2 => (none, s2)
    | .error e => (some e, snapshot)

/-- Projection: the validator record stored under an address in the state
a handler produced (none when the handler failed). -/
def storedValidator (r : Except VErr StateDB) (a : Address) : Option Validator :=
  match r with
  | .ok s => s.validators a
  | .error _ => none

/-- Whether a handler succeeded. -/
def isOk (r : Except VErr StateDB) : Bool :=
  match r with
  | .ok _ => true
  | .error _ => false

/-- Balance of an address in the state a handler produced (0 on error). -/
def resBalance (r : Except VErr StateDB) (a : Address) : Int :=
  match r with
  | .ok s => s.balances a
  | .error _ => 0

section Fixtures

/-- A chain configuration whose forks are all far in the future. -/
def cfgLate : ChainConfig :=
  { forkSlotDelegate := 1000000
    forkSlotValOpTracking := 1000000
    forkSlotValSyncProc := 1000000
    validatorOpExpireSlots := 32
    effectiveBalance := 3200 }

/-- A baseline processor fixture: validators-state address 7, slot 10,
empty chain lookups, signature oracle accepting. -/
def proc0 : Proc :=
  { valsStateAddress := 7
    cfg := cfgLate
    ctxSlot := 10
    ctxEra := 1
    ctxBlockHash := ⟨99, 1⟩
    eraInfoNumber := 1
    currentSlot := 10
    slotToEpoch := fun sl => sl / 32
    slotOfEpochStart := fun ep => some (ep * 32)
    epochToEra := fun ep => ep / 8
    eraStartEpoch := fun er => er * 8
    receiptLookup := fun _ => (none, zeroHash)
    headerSlot := fun _ => none
    txLookup := fun _ => none
    savedValSync := fun _ => none
    depositSigOk := fun _ => true }

/-- A baseline state: address 5 holds twice the minimum deposit, no
validators, no logs. -/
def state0 : StateDB :=
  { balances := fun a => if a = 5 then 2 * 10 ^ 19 else 0
    nonces := fun _ => 0
    logs := []
    validators := fun _ => none
    depositCount := 0
    validatorList := [] }

/-- A deposit message: pubkey 77, creator 11, withdrawal address 12. -/
def msgDep : Msg := ⟨⟨500, 0⟩, some (.deposit ⟨77, 11, 12, none⟩)⟩

end Fixtures

/-- Claim C7: depositing exactly the minimum value (10 x 10^18 base units)
for a brand-new creator with a valid signature and sufficient balance
succeeds, creates the validator record, increments the global deposit
counter by exactly 1 and debits the sender by exactly the value; one unit
below the minimum fails with the too-low-value error and the sender
balance is unchanged after the revert. -/
theorem c7_min_deposit_scenario :
    (proc0.Call state0 5 7 (some minDepositVal) msgDep).1 = none ∧
    state0.validators 11 = none ∧
    ((proc0.Call state0 5 7 (some minDepositVal) msgDep).2.validators 11).map
      (fun v => (v.pubKey, v.withdrawalAddress, v.stake)) =
      some (77, some 12, [(5, minDepositVal)]) ∧
    (proc0.Call state0 5 7 (some minDepositVal) msgDep).2.depositCount =
      state0.depositCount + 1 ∧
    (proc0.Call state0 5 7 (some minDepositVal) msgDep).2.balances 5 =
      state0.balances 5 - minDepositVal ∧
    (proc0.Call state0 5 7 (some (minDepositVal - 1)) msgDep).1 =
      some .tooLowDepositValue ∧
    (proc0.Call state0 5 7 (some (minDepositVal - 1)) msgDep).2.balances 5 =
      state0.balances 5 := by
  refine ⟨by decide, by decide, by decide, by decide, by decide, by decide, by decide⟩

/-- Claim C1 (counterexample): a failed operation does not leave the state
identical to the pre-call state: the caller's nonce increment, performed
before the snapshot is taken, persists across the revert. -/
theorem c1_counterexample :
    (proc0.Call state0 5 7 (some (minDepositVal - 1)) msgDep).1 ≠ none ∧
    (proc0.Call state0 5 7 (some (minDepositVal - 1)) msgDep).2.nonces 5 ≠
      state0.nonces 5 := by
  refine ⟨by decide, by decide⟩

/-- Claim C1 (amended): for every operation that decodes and is dispatched
by Processor.Call and returns an error, the resulting state is exactly the
snapshot taken at the start of the call: balances, validator records, logs
and the deposit counter are unchanged; the caller's nonce increment,
performed before the snapshot, is the only persisting mutation. -/
theorem c1_amended (p : Proc) (s : StateDB) (caller toAddr : Address)
    (value : Option Int) (msg : Msg) (op : Op) (e : VErr)
    (hop : msg.dataOp = some op)
    (herr : (p.Call s caller toAddr value msg).1 = some e) :
    (p.Call s caller toAddr value msg).2 = s.bumpNonce caller ∧
    (∀ a, (p.Call s caller toAddr value msg).2.balances a = s.balances a) ∧
    (∀ a, (p.Call s caller toAddr value msg).2.validators a = s.validators a) ∧
    (p.Call s caller toAddr value msg).2.logs = s.logs ∧
    (p.Call s caller toAddr value msg).2.depositCount = s.depositCount ∧
    (p.Call s caller toAddr value msg).2.nonces caller = u64 (s.nonces caller + 1) := by
  have hcall : p.Call s caller toAddr value msg =
      (match p.dispatchOp (s.bumpNonce caller) caller toAddr value op msg.txHash with
       | .ok s2 => (none, s2)
       | .error e2 => (some e2, s.bumpNonce caller)) := by
    unfold Proc.Call
    rw [hop]
  rw [hcall] at herr ⊢
  rcases h : p.dispatchOp (s.bumpNonce caller) caller toAddr value op msg.txHash with e2 | s2
  · refine ⟨rfl, fun a => rfl, fun a => rfl, rfl, rfl, ?_⟩
    simp [StateDB.bumpNonce]
  · rw [h] at herr
    exact Option.noConfusion herr

/-- Claim C1 amended, instantiated: the failing under-minimum deposit of
the counterexample reverts to exactly the nonce-bumped snapshot. -/
theorem c1_amended_witness :
    msgDep.dataOp = some (.deposit ⟨77, 11, 12, none⟩) ∧
    (proc0.Call state0 5 7 (some (minDepositVal - 1)) msgDep).1 =
      some .tooLowDepositValue ∧
    (proc0.Call state0 5 7 (some (minDepositVal - 1)) msgDep).2 =
      state0.bumpNonce 5 :=
  ⟨rfl, by decide,
    (c1_amended proc0 state0 5 7 (some (minDepositVal - 1)) msgDep
      (.deposit ⟨77, 11, 12, none⟩) .tooLowDepositValue rfl (by decide)).1⟩

/-- Claim C10: a deposit targeting an existing validator record whose
ActivationEra is below the max-uint64 sentinel is rejected with the
already-activated error, even when pubkey, withdrawal address and
delegating-stake data all match the stored record exactly. -/
theorem c10_redeposit_activated (p : Proc) (s : StateDB) (caller toAddr : Address)
    (v : Int) (op : DepositData) (txHash : Hash) (cv : Validator)
    (ht : toAddr = p.valsStateAddress)
    (hsig : p.depositSigOk op = true)
    (hmin : minDepositVal ≤ v)
    (hcast : bnCanCastToUint64 (Int.ediv v bigGwei) = true)
    (hbal : v ≤ s.balances caller)
    (hdlg : p.depositDelegateCheck op = none)
    (hcv : s.validators op.creatorAddress = some cv)
    (hact : cv.activationEra < maxUint64)
    (hpk : cv.pubKey = op.pubKey)
    (hwa : cv.withdrawalAddress = some op.withdrawalAddress)
    (hds : cv.delegatingStake = op.delegatingStake) :
    p.validatorDeposit s caller toAddr (some v) op txHash =
      .error .depositAlreadyActivated := by
  unfold Proc.validatorDeposit
  rw [ht, hsig, hdlg, hcv]
  simp only [ne_eq, not_true_eq_false, if_false, Bool.true_eq_false, not_false_eq_true,
    if_true, not_lt.mpr hmin, hcast, not_lt.mpr hbal]
  simp [depositExistingCheck, hact]

/-- A validator record that has already been activated (era 3). -/
def valActivated : Validator :=
  { newValidator 77 11 (some 12) with activationEra := 3, index := 4, version := 1 }

/-- A state holding the activated validator under creator address 11. -/
def stateAct : StateDB :=
  { state0 with validators := fun a => if a = 11 then some valActivated else none }

/-- Claim C10 instantiated: re-depositing the minimum value with fully
matching data to the activated validator fixture is rejected. -/
theorem c10_redeposit_activated_witness :
    proc0.validatorDeposit stateAct 5 7 (some minDepositVal) ⟨77, 11, 12, none⟩ ⟨500, 0⟩ =
      .error .depositAlreadyActivated :=
  c10_redeposit_activated proc0 stateAct 5 7 minDepositVal ⟨77, 11, 12, none⟩ ⟨500, 0⟩
    valActivated rfl rfl (by decide) (by decide) (by decide) rfl rfl (by decide)
    rfl rfl rfl

/-- Claim C4: a successful Activate sync operation on a known validator
sets ActivationEra to exactly the era of the op's processing epoch (the
current era at coordinator processing) plus 2, clears the stake ledger and
the deposit-tx set, and assigns the op's Index. -/
theorem c4_activate_postpone (p : Proc) (s : StateDB) (op : ValidatorSyncData)
    (v : Validator) (curEra : Nat)
    (hv : s.validators op.creator = some v)
    (haddr : v.address = op.creator)
    (hgate : ¬ (p.cfg.isForkSlotValOpTracking p.ctxSlot = true ∧
      v.activationEra ≠ maxUint64))
    (hera : p.epochToEra op.procEpoch = curEra)
    (hof : curEra + postpone < 2 ^ 64) :
    isOk (p.validatorActivate s op) = true ∧
    (storedValidator (p.validatorActivate s op) op.creator).map
      (fun w => (w.activationEra, w.stake, w.depositTxs, w.index)) =
      some (curEra + postpone, ([] : List (Address × Int)), ([] : List Hash), op.index) := by
  unfold Proc.validatorActivate
  rw [hv]
  simp only [ne_eq, if_neg hgate]
  constructor
  · rcases h : p.cfg.isForkSlotDelegate p.ctxSlot with _ | _ <;> simp [isOk, h]
  · have hu : u64 (curEra + postpone) = curEra + postpone := Nat.mod_eq_of_lt hof
    rcases h : p.cfg.isForkSlotDelegate p.ctxSlot with _ | _ <;>
      simp [storedValidator, StateDB.setValidator, StateDB.addLog, h,
        Proc.updateValidatorVersionBySlot, haddr, hera, hu]

/-- A known, not yet activated validator fixture for creator 11. -/
def valFresh : Validator := newValidator 77 11 (some 12)

/-- A state holding the fresh validator under creator address 11. -/
def stateFresh : StateDB :=
  { state0 with validators := fun a => if a = 11 then some valFresh else none }

/-- An Activate sync op for creator 11: processing epoch 16 (era 2 under
the fixture era mapping), index 9. -/
def opActivate : ValidatorSyncData :=
  { opType := .activate
    procEpoch := 16
    index := 9
    creator := 11
    amount := none
    balance := none
    initTxHash := ⟨700, 0⟩
    version := 0 }

/-- Claim C4 instantiated: activating the fresh validator at processing
epoch 16 (era 2) stores activation era 4, empty ledger and deposit-tx set,
and index 9. -/
theorem c4_activate_postpone_witness :
    isOk (proc0.validatorActivate stateFresh opActivate) = true ∧
    (storedValidator (proc0.validatorActivate stateFresh opActivate) 11).map
      (fun w => (w.activationEra, w.stake, w.depositTxs, w.index)) =
      some (4, ([] : List (Address × Int)), ([] : List Hash), 9) :=
  c4_activate_postpone proc0 stateFresh opActivate valFresh 2 rfl rfl (by decide)
    rfl (by decide)

/-- Claim C8: DelegatingStakeRules validation succeeds exactly when the
profit-share percentages sum to 100, the stake-share percentages sum to
100, and both the exit and withdrawal role lists are non-empty; each
single violated condition yields its corresponding named error. -/
theorem c8_dsr_validate (r : DelegatingStakeRules) :
    (r.validate = none ↔
      sumShares r.profitShare = 100 ∧ sumShares r.stakeShare = 100 ∧
      r.exitRoles ≠ [] ∧ r.withdrawalRoles ≠ []) ∧
    (sumShares r.profitShare ≠ 100 → r.validate = some .badProfitShare) ∧
    (sumShares r.profitShare = 100 → sumShares r.stakeShare ≠ 100 →
      r.validate = some .badStakeShare) ∧
    (sumShares r.profitShare = 100 → sumShares r.stakeShare = 100 →
      r.exitRoles = [] → r.validate = some .noExitRoles) ∧
    (sumShares r.profitShare = 100 → sumShares r.stakeShare = 100 →
      r.exitRoles ≠ [] → r.withdrawalRoles = [] →
      r.validate = some .noWithdrawalRoles) := by
  unfold DelegatingStakeRules.validate
  refine ⟨?_, ?_, ?_, ?_, ?_⟩ <;>
    first
      | (constructor
         · intro h
           by_contra hc
           revert h
           split <;> (try split) <;> (try split) <;> (try split) <;> simp_all
         · intro h
           simp [h.1, h.2.1, h.2.2.1, h.2.2.2])
      | (intros <;> simp_all)

/-- The delegating-stake rules of the repository's test fixture: profit
shares 10/30/60, stake shares 70/30, one exit role, one withdrawal role. -/
def dsrOK : DelegatingStakeRules :=
  { profitShare := [(1, 10), (2, 30), (3, 60)]
    stakeShare := [(4, 70), (5, 30)]
    exitRoles := [6]
    withdrawalRoles := [7] }

/-- Claim C8 instantiated: the well-formed fixture validates, and the
fixture with an incomplete profit-share map yields the profit-share
error. -/
theorem c8_dsr_validate_witness :
    dsrOK.validate = none ∧
    DelegatingStakeRules.validate
      { dsrOK with profitShare := [(1, 10), (2, 30)] } = some .badProfitShare :=
  ⟨(c8_dsr_validate dsrOK).1.mpr (by decide),
   (c8_dsr_validate { dsrOK with profitShare := [(1, 10), (2, 30)] }).2.1 (by decide)⟩

/-- A chain configuration with the delegate fork already active. -/
def cfgDelegate : ChainConfig := { cfgLate with forkSlotDelegate := 0 }

/-- The baseline processor with the delegate fork active. -/
def procDlg : Proc := { proc0 with cfg := cfgDelegate }

/-- Delegating-stake data built from the rules fixture (no trial: the
trial rules coincide with the regular rules). -/
def dsdOK : DelegatingStakeData := ⟨dsrOK, 0, dsrOK⟩

/-- A delegating validator for creator 11 (not yet activated). -/
def valDlg : Validator :=
  { newValidator 77 11 (some 12) with delegatingStake := some dsdOK, version := 1 }

/-- An UpdateBalance sync op whose profit portion is exactly 100 base
units: the reported balance sits exactly at the effective balance, so the
whole incoming amount of 100 is profit. -/
def opUB100 : ValidatorSyncData :=
  { opType := .updateBalance
    procEpoch := 16
    index := 9
    creator := 11
    amount := some 100
    balance := some (3200 * 10 ^ 18)
    initTxHash := ⟨800, 0⟩
    version := 1 }

/-- The same UpdateBalance sync op with a non-divisible amount of 101. -/
def opUB101 : ValidatorSyncData := { opUB100 with amount := some 101 }

/-- Claim C9: under profit shares 10/30/60, a profit portion of exactly
100 base units credits 10, 30 and 60 summing to the full portion, and a
non-divisible portion of 101 truncates (credit is (101 div 100) times the
share), drops the remainder and sums to (101 div 100) times 100. -/
theorem c9_delegating_distribution :
    isOk (procDlg.applyDelegatingStakeRules state0 opUB100 valDlg) = true ∧
    resBalance (procDlg.applyDelegatingStakeRules state0 opUB100 valDlg) 1 = 10 ∧
    resBalance (procDlg.applyDelegatingStakeRules state0 opUB100 valDlg) 2 = 30 ∧
    resBalance (procDlg.applyDelegatingStakeRules state0 opUB100 valDlg) 3 = 60 ∧
    resBalance (procDlg.applyDelegatingStakeRules state0 opUB100 valDlg) 1 +
      resBalance (procDlg.applyDelegatingStakeRules state0 opUB100 valDlg) 2 +
      resBalance (procDlg.applyDelegatingStakeRules state0 opUB100 valDlg) 3 = 100 ∧
    isOk (procDlg.applyDelegatingStakeRules state0 opUB101 valDlg) = true ∧
    resBalance (procDlg.applyDelegatingStakeRules state0 opUB101 valDlg) 1 =
      Int.ediv 101 100 * 10 ∧
    resBalance (procDlg.applyDelegatingStakeRules state0 opUB101 valDlg) 2 =
      Int.ediv 101 100 * 30 ∧
    resBalance (procDlg.applyDelegatingStakeRules state0 opUB101 valDlg) 3 =
      Int.ediv 101 100 * 60 ∧
    resBalance (procDlg.applyDelegatingStakeRules state0 opUB101 valDlg) 1 +
      resBalance (procDlg.applyDelegatingStakeRules state0 opUB101 valDlg) 2 +
      resBalance (procDlg.applyDelegatingStakeRules state0 opUB101 valDlg) 3 =
      Int.ediv 101 100 * 100 ∧
    Int.ediv 101 100 * 100 = (100 : Int) := by
  refine ⟨by decide, by decide, by decide, by decide, by decide, by decide, by decide,
    by decide, by decide, by decide, by decide⟩

/-- An activated delegating validator for creator 11 with a pending
withdrawal tx (the UpdateBalance claim's delegating branch fixture). -/
def valDlgPending : Validator :=
  { valDlg with activationEra := 1, withdrawalTx := some ⟨900, 0⟩ }

/-- A state holding the pending delegating validator under creator 11. -/
def stateDlgPending : StateDB :=
  { state0 with validators := fun a => if a = 11 then some valDlgPending else none }

/-- The UpdateBalance sync op confirming the pending withdrawal tx of the
delegating fixture (its init tx is the pending withdrawal tx itself). -/
def opUBDlg : ValidatorSyncData := { opUB100 with initTxHash := ⟨900, 0⟩ }

/-- Claim C5, evaluated at the failing input: a successful UpdateBalance
on a delegating validator leaves the persisted record's pending
withdrawal tx set; the in-memory clearing is never persisted because the
delegating branch returns without a SetValidator call. -/
theorem c5_failing_input_eval :
    isOk (procDlg.validatorUpdateBalance stateDlgPending opUBDlg) = true ∧
    (storedValidator (procDlg.validatorUpdateBalance stateDlgPending opUBDlg) 11).map
      (fun w => w.withdrawalTx) = some (some ⟨900, 0⟩) := by
  refine ⟨by decide, by decide⟩

/-- The baseline processor with the operation-tracking fork active. -/
def procTrk : Proc := { proc0 with cfg := { cfgLate with forkSlotValOpTracking := 0 } }

/-- A never-activated validator for creator 11 whose total stake (5 wat,
all from depositor 5) is below the effective balance. -/
def valUnder : Validator :=
  { newValidator 77 11 (some 5) with stake := [(5, 5 * 10 ^ 18)], version := 1 }

/-- A state holding the under-threshold validator under creator 11. -/
def stateUnder : StateDB :=
  { state0 with validators := fun a => if a = 11 then some valUnder else none }

/-- A withdrawal op on creator 11 for 1 wat. -/
def wopUnder : WithdrawalData := ⟨11, 10 ^ 18⟩

/-- Claim C6 (counterexample): with the operation-tracking fork active,
the insufficient-deposit refund path of validatorWithdrawal succeeds
without touching the stake ledger; the claim predicts the subtraction is
performed here exactly when that fork is active. -/
theorem c6_counterexample :
    procTrk.cfg.isForkSlotValOpTracking procTrk.ctxSlot = true ∧
    isOk (procTrk.validatorWithdrawal stateUnder 5 7 wopUnder ⟨1000, 0⟩) = true ∧
    (storedValidator (procTrk.validatorWithdrawal stateUnder 5 7 wopUnder ⟨1000, 0⟩)
      11).map (fun w => w.stake) = some [(5, 5 * 10 ^ 18)] := by
  refine ⟨by decide, by decide, by decide⟩

/-- Claim C6 (amended): on the insufficient-deposit refund path of
Withdrawal, the sender must be an existing depositor, the amount must not
exceed their deposited stake, zero means refund-all, and the stake-ledger
subtraction with eviction of zero entries is performed at this step only
while the operation-tracking fork is NOT yet active; once the fork is
active this step leaves the ledger untouched and defers the mutation to
the UpdateBalance sync-confirmation step. -/
theorem c6_amended (p : Proc) (s : StateDB) (caller toAddr : Address)
    (op : WithdrawalData) (txHash : Hash) (v : Validator)
    (ht : toAddr = p.valsStateAddress)
    (hcast : bnCanCastToUint64 (Int.ediv op.amount bigGwei) = true)
    (hv : s.validators op.creatorAddress = some v)
    (haddr : v.address = op.creatorAddress)
    (hnopending : v.withdrawalTx = none)
    (hact : v.activationEra = maxUint64)
    (hstake : v.totalStake < p.cfg.effectiveBalance * bigWat) :
    ((v.stakeByAddress caller = none ∨ v.stakeByAddress caller = some 0) →
      p.validatorWithdrawal s caller toAddr op txHash = .error .invalidFromAddresses) ∧
    (∀ st, v.stakeByAddress caller = some st → st ≠ 0 → st < op.amount →
      p.validatorWithdrawal s caller toAddr op txHash =
        .error .insufficientFundsForOp) ∧
    (∀ st amt, v.stakeByAddress caller = some st → st ≠ 0 → op.amount ≤ st →
      amt = (if op.amount = 0 then st else op.amount) →
      (p.cfg.isForkSlotValOpTracking p.ctxSlot = true →
        isOk (p.validatorWithdrawal s caller toAddr op txHash) = true ∧
        (storedValidator (p.validatorWithdrawal s caller toAddr op txHash)
          op.creatorAddress).map (fun w => w.stake) = some v.stake) ∧
      (p.cfg.isForkSlotValOpTracking p.ctxSlot = false →
        isOk (p.validatorWithdrawal s caller toAddr op txHash) = true ∧
        (storedValidator (p.validatorWithdrawal s caller toAddr op txHash)
          op.creatorAddress).map (fun w => w.stake) =
          some (if st - amt = 0
                then (stakeSet v.stake caller (st - amt)).filter
                  (fun kv => kv.1 ≠ caller)
                else stakeSet v.stake caller (st - amt)))) := by
  have hstake2 : (List.map Prod.snd v.stake).sum < p.cfg.effectiveBalance * bigWat :=
    hstake
  have hred : p.validatorWithdrawal s caller toAddr op txHash =
      p.withdrawalTail s caller op txHash v := by
    unfold Proc.validatorWithdrawal
    rw [ht, hv]
    simp [hcast, Proc.pendingOpBlocks, hnopending]
  rw [hred]
  unfold Proc.withdrawalTail
  simp only [Proc.updateValidatorVersionBySlot, Validator.stakeByAddress,
    Validator.totalStake, Validator.subtractStake, Validator.rmStakeByAddress,
    hact, hstake2, and_self, if_true]
  refine ⟨?_, ?_, ?_⟩
  · rintro (hsb | hsb) <;> rw [hsb] <;> simp
  · intro st hsb hne hlt
    rw [hsb]
    simp [hne, hlt]
  · intro st amt hsb hne hle hamt
    rw [hsb]
    subst hamt
    constructor
    · intro hfork
      simp [hfork, hne, not_lt.mpr hle, isOk, storedValidator, StateDB.setValidator,
        StateDB.addLog, haddr]
    · intro hfork
      rcases eq_or_ne op.amount 0 with h0 | h0
      · simp [hfork, hne, not_lt.mpr hle, h0, sub_self, not_lt.mpr (h0 ▸ hle), isOk,
          storedValidator, StateDB.setValidator, StateDB.addLog, haddr, hsb]
      · rcases eq_or_ne (st - op.amount) 0 with hz | hz <;>
          simp [hfork, hne, not_lt.mpr hle, h0, hz, isOk, storedValidator,
            StateDB.setValidator, StateDB.addLog, haddr, hsb]

/-- Claim C6 amended, instantiated: with the tracking fork active the
under-threshold fixture's ledger is untouched by the withdrawal request;
with the fork inactive the requested wat is subtracted immediately. -/
theorem c6_amended_witness :
    (storedValidator (procTrk.validatorWithdrawal stateUnder 5 7 wopUnder ⟨1000, 0⟩)
      11).map (fun w => w.stake) = some [(5, 5 * 10 ^ 18)] ∧
    (storedValidator (proc0.validatorWithdrawal stateUnder 5 7 wopUnder ⟨1000, 0⟩)
      11).map (fun w => w.stake) = some [(5, 4 * 10 ^ 18)] := by
  have hA := (c6_amended procTrk stateUnder 5 7 wopUnder ⟨1000, 0⟩ valUnder rfl
    (by decide) rfl rfl rfl rfl (by decide)).2.2 (5 * 10 ^ 18) (10 ^ 18)
    (by decide) (by decide) (by decide) (by decide)
  have hB := (c6_amended proc0 stateUnder 5 7 wopUnder ⟨1000, 0⟩ valUnder rfl
    (by decide) rfl rfl rfl rfl (by decide)).2.2 (5 * 10 ^ 18) (10 ^ 18)
    (by decide) (by decide) (by decide) (by decide)
  exact ⟨((hA.1 (by decide)).2).trans (by decide), ((hB.2 (by decide)).2).trans (by decide)⟩

/-- The pending-operation blocking condition, spelled out over the chain
lookups: the pending tx sits in the current block, or its receipt is
successful and the current slot is still inside the expiration window
after the pending tx's block slot. -/
def blockedCondition (p : Proc) (prev : Hash) : Prop :=
  ((p.receiptLookup prev).2 ≠ zeroHash ∧ (p.receiptLookup prev).2 = p.ctxBlockHash) ∨
  (∃ rc, (p.receiptLookup prev).1 = some rc ∧ rc.status = receiptStatusSuccessful ∧
    ∃ prevSlot, p.headerSlot (p.receiptLookup prev).2 = some prevSlot ∧
      p.ctxSlot < u64 (prevSlot + p.cfg.validatorOpExpireSlots))

/-- The boolean pending-operation check decides exactly the spelled-out
blocking condition. -/
theorem pendingOpBlocked_iff (p : Proc) (prev : Hash) :
    p.pendingOpBlocked prev = true ↔ blockedCondition p prev := by
  unfold Proc.pendingOpBlocked blockedCondition
  rcases hbl : p.receiptLookup prev with ⟨orc, bl⟩
  simp only [hbl]
  split
  · next h =>
    simp [h]
    exact Or.inl (h.2 ▸ h.1)
  · next h =>
    rcases orc with _ | rc
    · simp [h]
    · rcases eq_or_ne rc.status receiptStatusSuccessful with hs | hs
      · rcases hh : p.headerSlot bl with _ | slotv
        · simp [h, hh, hs]
        · simp [h, hh, hs]
      · simp [h, hs]

/-- isValidatorTrialPeriod can only fail with the epoch-slot resolution
error, never with the blocked error. -/
theorem trialPeriod_ne_blocked (p : Proc) (v : Validator) :
    p.isValidatorTrialPeriod v ≠ .error .valOpBlocked := by
  unfold Proc.isValidatorTrialPeriod
  repeat' split
  all_goals
    first
      | (simp
         done)
      | (dsimp only
         split <;> simp)

/-- The tail of validatorWithdrawal never produces the blocked error: the
blocked error of a withdrawal can only come from the ver1 pending-op
gate. -/
theorem withdrawalTail_ne_blocked (p : Proc) (s : StateDB) (caller : Address)
    (op : WithdrawalData) (txHash : Hash) (v : Validator) :
    p.withdrawalTail s caller op txHash v ≠ .error .valOpBlocked := by
  unfold Proc.withdrawalTail
  repeat' split
  all_goals try (simp
                 done)
  all_goals try (dsimp only
                 repeat' split
                 all_goals simp)
  all_goals rename_i e htp
  all_goals intro hc
  all_goals try (injection hc with h2
                 subst h2)
  all_goals try subst hc
  all_goals exact trialPeriod_ne_blocked p _ htp

/-- Claim C2: for a Ver1 validator with a pending withdrawal (resp. exit)
tx, a second Withdrawal (resp. Exit) request is rejected with the blocked
error exactly when the pending tx is in the same block, or its receipt is
successful and the current slot is still inside the expiration window
after its block's slot; once the window has elapsed or the prior tx
failed, this check does not block the new request. -/
theorem c2_second_op_blocked (p : Proc) (s : StateDB) (caller toAddr : Address)
    (wop : WithdrawalData) (eop : ExitData) (txW txE : Hash) (v : Validator)
    (prevW prevE : Hash)
    (ht : toAddr = p.valsStateAddress)
    (hcast : bnCanCastToUint64 (Int.ediv wop.amount bigGwei) = true)
    (hvw : s.validators wop.creatorAddress = some v)
    (hve : s.validators eop.creatorAddress = some v)
    (hver : Ver1 ≤ v.version)
    (hpw : v.withdrawalTx = some prevW)
    (hpe : v.exitTx = some prevE)
    (hpk : v.pubKey = eop.pubKey)
    (hact : v.activationEra ≤ p.eraInfoNumber)
    (hexit : v.exitEra = maxUint64)
    (hauth : p.exitAuthCheck v caller = none) :
    (p.validatorWithdrawal s caller toAddr wop txW = .error .valOpBlocked ↔
      blockedCondition p prevW) ∧
    (p.validatorExit s caller toAddr eop txE = .error .valOpBlocked ↔
      blockedCondition p prevE) := by
  constructor
  · rw [← pendingOpBlocked_iff]
    have hred : p.validatorWithdrawal s caller toAddr wop txW =
        if p.pendingOpBlocked prevW = true then .error .valOpBlocked
        else p.withdrawalTail s caller wop txW v := by
      unfold Proc.validatorWithdrawal
      rw [ht, hvw]
      simp [hcast, Proc.pendingOpBlocks, hver, hpw]
    rw [hred]
    rcases hb : p.pendingOpBlocked prevW with _ | _ <;>
      simp [hb, withdrawalTail_ne_blocked p s caller wop txW v]
  · rw [← pendingOpBlocked_iff]
    rcases hb : p.pendingOpBlocked prevE with _ | _ <;>
      (unfold Proc.validatorExit
       rw [ht, hve]
       simp [hpk, not_lt.mpr hact, hexit, hauth, Proc.pendingOpBlocks, hver, hpe, hb])

/-- A processor whose receipt lookup places every tx in the current block
(hash 99): pending operations block as same-block conflicts. -/
def procBlk : Proc := { proc0 with receiptLookup := fun _ => (some ⟨1⟩, ⟨99, 1⟩) }

/-- An activated Ver1 validator with both a pending withdrawal tx (41) and
a pending exit tx (42), withdrawal address 5. -/
def valPend : Validator :=
  { newValidator 77 11 (some 5) with
    activationEra := 1
    stake := [(5, 3200 * 10 ^ 18)]
    exitTx := some ⟨42, 0⟩
    withdrawalTx := some ⟨41, 0⟩
    version := 1 }

/-- A state holding the doubly-pending validator under creator 11. -/
def statePend : StateDB :=
  { state0 with validators := fun a => if a = 11 then some valPend else none }

/-- Claim C2 instantiated: with the pending txs resolved to the current
block, both the second withdrawal and the second exit request are
rejected with the blocked error. -/
theorem c2_second_op_blocked_witness :
    procBlk.validatorWithdrawal statePend 5 7 ⟨11, 10 ^ 18⟩ ⟨1000, 0⟩ =
      .error .valOpBlocked ∧
    procBlk.validatorExit statePend 5 7 ⟨77, 11, some 20⟩ ⟨1001, 0⟩ =
      .error .valOpBlocked := by
  have h := c2_second_op_blocked procBlk statePend 5 7 ⟨11, 10 ^ 18⟩ ⟨77, 11, some 20⟩
    ⟨1000, 0⟩ ⟨1001, 0⟩ valPend ⟨41, 0⟩ ⟨42, 0⟩ rfl (by decide) rfl rfl (by decide)
    rfl rfl rfl (by decide) rfl (by decide)
  exact ⟨h.1.mpr (Or.inl (by decide)), h.2.mpr (Or.inl (by decide))⟩

/-- The field check of the initiating tx yields only op-code, creator,
epoch or balance errors. -/
theorem initTxFieldCheck_ne (iop : Op) (op : ValidatorSyncData) (e : VErr)
    (h : initTxFieldCheck iop op = some e) :
    e ≠ .mismatchValSyncOp ∧ e ≠ .valSyncTxExists := by
  revert h
  unfold initTxFieldCheck
  repeat' split
  all_goals intro h
  all_goals first
    | (injection h with h2
       subst h2
       simp)
    | exact Option.noConfusion h

/-- The initiating-transaction stage never yields the mismatch error or
the duplicate-tx error: those come only from the earlier stages. -/
theorem validateSyncInitTx_ne (p : Proc) (op : ValidatorSyncData) :
    validateSyncInitTx p op ≠ some .mismatchValSyncOp ∧
    validateSyncInitTx p op ≠ some .valSyncTxExists := by
  constructor <;>
    (unfold validateSyncInitTx
     repeat' split
     all_goals try (simp
                    done)
     all_goals rename_i e hfc
     all_goals intro hc
     all_goals try (injection hc with hc)
     all_goals subst hc)
  · exact (initTxFieldCheck_ne _ _ _ hfc).1 rfl
  · exact (initTxFieldCheck_ne _ _ _ hfc).2 rfl

/-- The duplicate-tx check can only produce the duplicate-tx error. -/
theorem savedTxDupCheck_err (p : Proc) (saved : SavedValSync) (fk : Bool)
    (txHash : Hash) (e : VErr) (h : savedTxDupCheck p saved fk txHash = some e) :
    e = .valSyncTxExists := by
  revert h
  unfold savedTxDupCheck
  repeat' split
  all_goals intro h
  all_goals first
    | (injection h with h2
       exact h2.symm)
    | exact Option.noConfusion h

/-- The duplicate-tx check fires exactly when the saved record carries a
different tx hash and either the delegate fork is not active or the
previous tx's receipt is successful. -/
theorem savedTxDupCheck_iff (p : Proc) (saved : SavedValSync) (fk : Bool)
    (txHash t : Hash) (hts : saved.txHash = some t) (hne : t ≠ txHash) :
    savedTxDupCheck p saved fk txHash = some .valSyncTxExists ↔
      (fk = false ∨ ∃ rc, (p.receiptLookup t).1 = some rc ∧
        rc.status = receiptStatusSuccessful) := by
  unfold savedTxDupCheck
  rw [hts]
  rcases fk with _ | _
  · simp [hne]
  · simp only [hne, if_true, Bool.true_eq_false, false_or]
    rcases hrc : (p.receiptLookup t).1 with _ | rc
    · simp [hne, hrc]
    · rcases eq_or_ne rc.status receiptStatusSuccessful with hs | hs <;>
        simp [hne, hrc, hs]

/-- Claim C3: ValidateValidatorSyncOp fails with the no-saved-record error
exactly on a missing saved sync record; given a saved record (and an
acceptable epoch), it fails with the mismatch error exactly when the
field-by-field comparison (InitTxHash, OpType, Creator, Index, pre-fork
ProcEpoch ordering, Amount) fails; and with a matching record already
carrying a different tx hash it fails as a duplicate exactly when the
delegate fork is inactive or the previous tx's receipt is successful. -/
theorem c3_validate_sync (p : Proc) (op : ValidatorSyncData) (applySlot : Nat)
    (txHash : Hash) :
    (p.savedValSync op.initTxHash = none →
      ValidateValidatorSyncOp p op applySlot txHash = some .noSavedValSyncOp) ∧
    (∀ sv, p.savedValSync op.initTxHash = some sv →
      (p.cfg.isForkSlotDelegate applySlot = true ∨
        p.slotToEpoch applySlot ≤ op.procEpoch) →
      (ValidateValidatorSyncOp p op applySlot txHash = some .mismatchValSyncOp ↔
        CompareValSync sv op (p.cfg.isForkSlotDelegate applySlot) = false)) ∧
    (∀ sv t, p.savedValSync op.initTxHash = some sv →
      (p.cfg.isForkSlotDelegate applySlot = true ∨
        p.slotToEpoch applySlot ≤ op.procEpoch) →
      CompareValSync sv op (p.cfg.isForkSlotDelegate applySlot) = true →
      sv.txHash = some t → t ≠ txHash →
      (ValidateValidatorSyncOp p op applySlot txHash = some .valSyncTxExists ↔
        (p.cfg.isForkSlotDelegate applySlot = false ∨
          ∃ rc, (p.receiptLookup t).1 = some rc ∧
            rc.status = receiptStatusSuccessful))) := by
  refine ⟨?_, ?_, ?_⟩
  · intro h
    simp [ValidateValidatorSyncOp, h]
  · intro sv hsv hgate
    have hep : ¬ (¬ p.cfg.isForkSlotDelegate applySlot = true ∧
        op.procEpoch < p.slotToEpoch applySlot) := by
      rcases hgate with hg | hg
      · simp [hg]
      · simp [not_lt.mpr hg]
    unfold ValidateValidatorSyncOp
    rw [hsv]
    simp only [if_neg hep]
    rcases hcmp : CompareValSync sv op (p.cfg.isForkSlotDelegate applySlot) with _ | _
    · simp [hcmp]
    · simp only [hcmp, Bool.true_eq_false, not_true_eq_false, if_false, iff_false,
        Bool.not_true, if_neg]
      rcases hdup : savedTxDupCheck p sv (p.cfg.isForkSlotDelegate applySlot) txHash
        with _ | e
      · simp [hdup, (validateSyncInitTx_ne p op).1]
      · have := savedTxDupCheck_err p sv _ txHash e hdup
        subst this
        simp [hdup]
  · intro sv t hsv hgate hcmp hts htne
    have hep : ¬ (¬ p.cfg.isForkSlotDelegate applySlot = true ∧
        op.procEpoch < p.slotToEpoch applySlot) := by
      rcases hgate with hg | hg
      · simp [hg]
      · simp [not_lt.mpr hg]
    unfold ValidateValidatorSyncOp
    rw [hsv]
    simp only [if_neg hep, hcmp, Bool.not_true, if_neg, not_true_eq_false, if_false]
    have hiff := savedTxDupCheck_iff p sv (p.cfg.isForkSlotDelegate applySlot)
      txHash t hts htne
    rcases hdup : savedTxDupCheck p sv (p.cfg.isForkSlotDelegate applySlot) txHash
      with _ | e
    · rw [hdup] at hiff
      simp only [hdup]
      constructor
      · intro hc
        exact absurd hc (validateSyncInitTx_ne p op).2
      · intro hc
        exact Option.noConfusion (hiff.mpr hc)
    · have he := savedTxDupCheck_err p sv _ txHash e hdup
      subst he
      rw [hdup] at hiff
      simp only [hdup]
      simp [hiff.mp rfl]

/-- A saved sync record disagreeing with opUB100 on the index. -/
def svMismatch : SavedValSync :=
  { opType := .updateBalance
    procEpoch := 16
    index := 8
    creator := 11
    amount := some 100
    txHash := none
    initTxHash := ⟨800, 0⟩ }

/-- A saved sync record fully matching opUB100 but already carrying a
different tx hash. -/
def svDup : SavedValSync :=
  { svMismatch with index := 9, txHash := some ⟨333, 0⟩ }

/-- The delegate-fork processor knowing the mismatching saved record. -/
def procSvMis : Proc :=
  { procDlg with savedValSync := fun h => if h = ⟨800, 0⟩ then some svMismatch else none }

/-- The pre-delegate-fork processor knowing the duplicate saved record. -/
def procSvDup : Proc :=
  { proc0 with savedValSync := fun h => if h = ⟨800, 0⟩ then some svDup else none }

/-- Claim C3 instantiated: a missing saved record yields the no-saved
error; an index mismatch yields the mismatch error; a fully matching
record with a different recorded tx hash yields the duplicate error
before the delegate fork. -/
theorem c3_validate_sync_witness :
    ValidateValidatorSyncOp proc0 opUB100 10 ⟨444, 0⟩ = some .noSavedValSyncOp ∧
    ValidateValidatorSyncOp procSvMis opUB100 10 ⟨444, 0⟩ =
      some .mismatchValSyncOp ∧
    ValidateValidatorSyncOp procSvDup opUB100 10 ⟨444, 0⟩ = some .valSyncTxExists :=
  ⟨(c3_validate_sync proc0 opUB100 10 ⟨444, 0⟩).1 rfl,
   ((c3_validate_sync procSvMis opUB100 10 ⟨444, 0⟩).2.1 svMismatch rfl
     (Or.inl (by decide))).mpr (by decide),
   ((c3_validate_sync procSvDup opUB100 10 ⟨444, 0⟩).2.2 svDup ⟨333, 0⟩ rfl
     (Or.inr (by decide)) (by decide) rfl (by decide)).mpr (Or.inl (by decide))⟩

end ValProc
